import Mathlib

/-!
Shallow embedding of the cron core of `nanobot` (`nanobot/cron/service.py`)
and proofs about it.

Conventions used throughout:
* machine time is `Int` (epoch milliseconds);
* Python `None` becomes `Option.none`;
* a Python call that may raise is modelled as returning `Option` (with
  `none` for "raised");
* the third-party `croniter` / `zoneinfo` libraries are modelled as an
  explicit record of functions (`CronLib`), since their internals are
  external to the repository; `_compute_next_run` is parametrised by it.
-/

namespace NanobotCron

/-- Python truthiness of an optional string (`None` and `""` are falsy). -/
def strTruthy : Option String → Bool
  | none => false
  | some s => !s.isEmpty

/-- Python truthiness of an optional integer (`None` and `0` are falsy). -/
def intTruthy : Option Int → Bool
  | none => false
  | some v => v != 0

@[simp] theorem strTruthy_none : strTruthy none = false := rfl

@[simp] theorem strTruthy_some (s : String) : strTruthy (some s) = !s.isEmpty := rfl

@[simp] theorem intTruthy_none : intTruthy none = false := rfl

@[simp] theorem intTruthy_some (v : Int) : intTruthy (some v) = (v != 0) := rfl

/-- Schedule definition, mirroring the `CronSchedule` dataclass as it is
constructed and read by `service.py` (fields `kind`, `at_ms`, `every_ms`,
`expr`, `tz`). -/
structure CronSchedule where
  kind : String
  at_ms : Option Int := none
  every_ms : Option Int := none
  expr : Option String := none
  tz : Option String := none
deriving Repr, DecidableEq

/-- Job payload, mirroring the `CronPayload` dataclass as constructed and
read by `service.py`. -/
structure CronPayload where
  kind : String := "agent_turn"
  message : String := ""
  deliver : Bool := false
  channel : Option String := none
  «to» : Option String := none
deriving Repr, DecidableEq

/-- Mutable run state of a job, mirroring `CronJobState`. -/
structure CronJobState where
  next_run_at_ms : Option Int := none
  last_run_at_ms : Option Int := none
  last_status : Option String := none
  last_error : Option String := none
deriving Repr, DecidableEq

/-- A persisted job, mirroring the `CronJob` dataclass. -/
structure CronJob where
  id : String
  name : String
  enabled : Bool
  schedule : CronSchedule
  payload : CronPayload
  state : CronJobState
  created_at_ms : Int
  updated_at_ms : Int
  delete_after_run : Bool := false
deriving Repr, DecidableEq

/-- The job collection, mirroring `CronStore` (a schema version plus an
ordered list of jobs). -/
structure CronStore where
  version : Int := 1
  jobs : List CronJob := []
deriving Repr, DecidableEq

/-- Model of the external `croniter` + `zoneinfo` libraries used by
`_compute_next_run`.

* `zoneValid tz` models whether `ZoneInfo(tz)` succeeds;
* `localNext expr tz now` models
  `croniter(expr, base_time.astimezone(tz)).get_next(datetime).timestamp() * 1000`
  (`none` when the library raises, e.g. for an invalid expression);
* `utcNext expr now` models
  `croniter(expr, base_time).get_next(float) * 1000`
  (`none` when the library raises). -/
structure CronLib where
  zoneValid : String → Bool
  localNext : String → String → Int → Option Int
  utcNext : String → Int → Option Int

/-- Embedding of `_compute_next_run(schedule, now_ms)` from
`nanobot/cron/service.py`.

* kind `at`: returns `schedule.at_ms` unconditionally (catch-up);
* kind `every`: `None` when `every_ms` is falsy or `<= 0`, otherwise
  `now_ms + every_ms`;
* kind `cron` (with a truthy `expr`): when a truthy `tz` is set and
  `ZoneInfo` accepts it, evaluate in that timezone, any inner exception
  falling back to the UTC evaluation; otherwise evaluate in UTC; an
  exception escaping to the outer handler yields `None`;
* anything else: `None`. -/
def compute_next_run (lib : CronLib) (schedule : CronSchedule) (now_ms : Int) :
    Option Int :=
  if schedule.kind = "at" then
    schedule.at_ms
  else if schedule.kind = "every" then
    match schedule.every_ms with
    | none => none
    | some e => if e ≤ 0 then none else some (now_ms + e)
  else if schedule.kind = "cron" ∧ strTruthy schedule.expr then
    let e := schedule.expr.getD ""
    if strTruthy schedule.tz then
      let t := schedule.tz.getD ""
      if lib.zoneValid t then
        match lib.localNext e t now_ms with
        | some v => some v
        | none => lib.utcNext e now_ms
      else
        lib.utcNext e now_ms
    else
      lib.utcNext e now_ms
  else
    none

/-- A concrete `CronLib` instance used to witness theorems at concrete
inputs: every timezone is rejected and the UTC evaluation of any
expression returns `now + 60000`. -/
def witnessLib : CronLib where
  zoneValid := fun _ => false
  localNext := fun _ _ _ => none
  utcNext := fun _ now => some (now + 60000)

/-- C1: for an `every` schedule, a positive `every_ms` yields
`now + every_ms` (with no dependence on any run history, as
`compute_next_run` takes only the schedule and `now`), while a missing,
zero, or negative `every_ms` yields `none`. -/
theorem every_schedule_next_run (lib : CronLib) (sched : CronSchedule)
    (now : Int) (hk : sched.kind = "every") :
    (∀ e : Int, sched.every_ms = some e → 0 < e →
        compute_next_run lib sched now = some (now + e)) ∧
    (sched.every_ms = none → compute_next_run lib sched now = none) ∧
    (∀ e : Int, sched.every_ms = some e → e ≤ 0 →
        compute_next_run lib sched now = none) := by
  refine ⟨?_, ?_, ?_⟩
  · intro e he hpos
    simp [compute_next_run, hk, he]
    omega
  · intro he
    simp [compute_next_run, hk, he]
  · intro e he hnonpos
    simp [compute_next_run, hk, he]
    omega

/-- Witness for `every_schedule_next_run` at a concrete schedule. -/
theorem every_schedule_next_run_witness :
    compute_next_run witnessLib
      { kind := "every", every_ms := some 5000 } 100 = some 5100 ∧
    compute_next_run witnessLib
      { kind := "every", every_ms := some (-3) } 100 = none ∧
    compute_next_run witnessLib
      { kind := "every", every_ms := none } 100 = none := by
  have h := every_schedule_next_run witnessLib
    { kind := "every", every_ms := some 5000 } 100 rfl
  have h2 := every_schedule_next_run witnessLib
    { kind := "every", every_ms := some (-3) } 100 rfl
  have h3 := every_schedule_next_run witnessLib
    { kind := "every", every_ms := none } 100 rfl
  exact ⟨h.1 5000 rfl (by decide), h3.2.1 rfl, h2.2.2 (-3) rfl (by decide)⟩

/-- C2: for an `at` schedule with a configured instant, `compute_next_run`
returns exactly that instant, for every `now` — including `now` past the
instant (catch-up semantics). -/
theorem at_schedule_next_run (lib : CronLib) (sched : CronSchedule)
    (now t : Int) (hk : sched.kind = "at") (ha : sched.at_ms = some t) :
    compute_next_run lib sched now = some t := by
  simp [compute_next_run, hk, ha]

/-- Witness for `at_schedule_next_run` at a concrete schedule whose
instant lies in the past relative to `now`. -/
theorem at_schedule_next_run_witness :
    compute_next_run witnessLib
      { kind := "at", at_ms := some 1000 } 5000 = some 1000 :=
  at_schedule_next_run witnessLib
    { kind := "at", at_ms := some 1000 } 5000 1000 rfl rfl

/-- C5: for a `cron` schedule whose timezone identifier is rejected by
`ZoneInfo`, `compute_next_run` returns exactly what it returns for the
identical schedule with no timezone set (the UTC evaluation), and in both
cases the result is the UTC library evaluation when the expression is
truthy and `none` otherwise — in particular both sides are `none` when
the expression is invalid (the library raises), and no exception escapes
(the embedding is a total function). -/
theorem cron_bad_tz_falls_back_to_utc (lib : CronLib) (sched : CronSchedule)
    (now : Int) (t : String) (hk : sched.kind = "cron")
    (htz : sched.tz = some t) (hbad : lib.zoneValid t = false) :
    compute_next_run lib sched now =
      compute_next_run lib { sched with tz := none } now ∧
    compute_next_run lib sched now =
      (if strTruthy sched.expr then
        lib.utcNext (sched.expr.getD "") now
      else none) := by
  constructor
  · by_cases he : strTruthy sched.expr
    · by_cases ht : strTruthy sched.tz
      · simp [compute_next_run, hk, he, ht, htz, hbad]
      · simp [compute_next_run, hk, he, ht]
    · simp [compute_next_run, hk, he]
  · by_cases he : strTruthy sched.expr
    · by_cases ht : strTruthy sched.tz
      · simp [compute_next_run, hk, he, ht, htz, hbad]
      · simp [compute_next_run, hk, he, ht]
    · simp [compute_next_run, hk, he]

/-- Witness for `cron_bad_tz_falls_back_to_utc` at a concrete schedule
with an unrecognized timezone. -/
theorem cron_bad_tz_falls_back_to_utc_witness :
    compute_next_run witnessLib
      { kind := "cron", expr := some "0 12 * * *", tz := some "Not/AZone" } 100 =
      compute_next_run witnessLib
        { kind := "cron", expr := some "0 12 * * *", tz := none } 100 ∧
    compute_next_run witnessLib
      { kind := "cron", expr := some "0 12 * * *", tz := some "Not/AZone" } 100 =
      some 60100 := by
  have h := cron_bad_tz_falls_back_to_utc witnessLib
    { kind := "cron", expr := some "0 12 * * *", tz := some "Not/AZone" }
    100 "Not/AZone" rfl rfl rfl
  refine ⟨h.1, ?_⟩
  rw [h.2]
  decide

/-! ### Job executor (`CronService._execute_job`) -/

/-- Outcome of the single `await self.on_job(job)` call made by
`_execute_job`: `ok response` when the callback returns (also covering an
unset callback, where the response is `None`), `error m` when it raises an
exception whose string form is `m`. -/
inductive CallbackOutcome where
  | ok (response : Option String)
  | error (message : String)
deriving Repr, DecidableEq

/-- The mutations `_execute_job` performs on the job object itself:
status/error recording from the callback outcome, `last_run_at_ms` set to
the start time, `updated_at_ms` bumped, then the post-run schedule update
(`at` jobs are disabled with `next_run_at_ms` cleared unless they are
about to be deleted; other kinds are re-armed via `_compute_next_run` at
the current time).

`start_ms`, `upd_ms` and `sched_now_ms` are the three successive
`_now_ms()` readings taken at lines 274, 292 and 303 of `service.py`. -/
def execute_job_update (lib : CronLib) (outcome : CallbackOutcome)
    (start_ms upd_ms sched_now_ms : Int) (job : CronJob) : CronJob :=
  let job :=
    match outcome with
    | .ok _ =>
      { job with state :=
          { job.state with last_status := some "ok", last_error := none } }
    | .error m =>
      { job with state :=
          { job.state with last_status := some "error", last_error := some m } }
  let job := { job with
    state := { job.state with last_run_at_ms := some start_ms },
    updated_at_ms := upd_ms }
  if job.schedule.kind = "at" then
    if job.delete_after_run then
      job
    else
      { job with enabled := false,
                 state := { job.state with next_run_at_ms := none } }
  else
    { job with state := { job.state with
        next_run_at_ms := compute_next_run lib job.schedule sched_now_ms } }

/-- Embedding of `CronService._execute_job(job)`: the job (an element of
the store's list, mutated in place in the source, hence replaced by id
here) is updated via `execute_job_update`; an `at` job with
`delete_after_run` is instead removed from the collection. The job id is
added to the in-flight set on entry and discarded on exit, and the store
is saved exactly once. Returns the new store, the new in-flight set and
the number of saves performed. The embedding is a total function: the
only fallible step, the callback, is received as an already-caught
`CallbackOutcome`, matching the source's `try`/`except` around it. -/
def execute_job (lib : CronLib) (outcome : CallbackOutcome)
    (start_ms upd_ms sched_now_ms : Int)
    (store : CronStore) (running : List String) (job : CronJob) :
    CronStore × List String × Nat :=
  let j := execute_job_update lib outcome start_ms upd_ms sched_now_ms job
  let jobs' :=
    if job.schedule.kind = "at" ∧ job.delete_after_run then
      store.jobs.filter (fun x => x.id != job.id)
    else
      store.jobs.map (fun x => if x.id = job.id then j else x)
  ({ store with jobs := jobs' }, (job.id :: running).filter (· != job.id), 1)

theorem execute_job_update_id (lib : CronLib) (outcome : CallbackOutcome)
    (start_ms upd_ms sched_now_ms : Int) (job : CronJob) :
    (execute_job_update lib outcome start_ms upd_ms sched_now_ms job).id =
      job.id := by
  cases outcome <;>
    by_cases hk : job.schedule.kind = "at" <;>
      by_cases hd : job.delete_after_run <;>
        simp [execute_job_update, hk, hd]

theorem execute_job_update_schedule (lib : CronLib) (outcome : CallbackOutcome)
    (start_ms upd_ms sched_now_ms : Int) (job : CronJob) :
    (execute_job_update lib outcome start_ms upd_ms sched_now_ms job).schedule =
      job.schedule := by
  cases outcome <;>
    by_cases hk : job.schedule.kind = "at" <;>
      by_cases hd : job.delete_after_run <;>
        simp [execute_job_update, hk, hd]

/-- C3: `_execute_job` always completes (the embedding is a total
function; the callback is the only fallible step and its exception is
caught) and records the outcome in the job's state: an exception yields
`last_status = "error"` with `last_error` set to its message, success
yields `last_status = "ok"` with `last_error` cleared; in both cases
`last_run_at_ms` is the execution start time and `updated_at_ms` is
bumped to the later reading. -/
theorem execute_job_records_outcome (lib : CronLib) (outcome : CallbackOutcome)
    (start_ms upd_ms sched_now_ms : Int) (job : CronJob) :
    (∀ m, outcome = .error m →
        (execute_job_update lib outcome start_ms upd_ms sched_now_ms job).state.last_status =
            some "error" ∧
        (execute_job_update lib outcome start_ms upd_ms sched_now_ms job).state.last_error =
            some m) ∧
    (∀ r, outcome = .ok r →
        (execute_job_update lib outcome start_ms upd_ms sched_now_ms job).state.last_status =
            some "ok" ∧
        (execute_job_update lib outcome start_ms upd_ms sched_now_ms job).state.last_error =
            none) ∧
    (execute_job_update lib outcome start_ms upd_ms sched_now_ms job).state.last_run_at_ms =
        some start_ms ∧
    (execute_job_update lib outcome start_ms upd_ms sched_now_ms job).updated_at_ms =
        upd_ms := by
  cases outcome <;>
    by_cases hk : job.schedule.kind = "at" <;>
      by_cases hd : job.delete_after_run <;>
        simp [execute_job_update, hk, hd]

/-- A concrete job used to witness executor theorems: a one-shot `at` job
kept after its run. -/
def wJobAt : CronJob where
  id := "j1"
  name := "once"
  enabled := true
  schedule := { kind := "at", at_ms := some 1000 }
  payload := { message := "hi" }
  state := { next_run_at_ms := some 1000 }
  created_at_ms := 0
  updated_at_ms := 0
  delete_after_run := false

/-- Witness for `execute_job_records_outcome` at a concrete failing and a
concrete succeeding execution. -/
theorem execute_job_records_outcome_witness :
    (execute_job_update witnessLib (.error "boom") 10 20 30 wJobAt).state.last_status =
        some "error" ∧
    (execute_job_update witnessLib (.error "boom") 10 20 30 wJobAt).state.last_error =
        some "boom" ∧
    (execute_job_update witnessLib (.ok none) 10 20 30 wJobAt).state.last_status =
        some "ok" ∧
    (execute_job_update witnessLib (.ok none) 10 20 30 wJobAt).state.last_error =
        none ∧
    (execute_job_update witnessLib (.ok none) 10 20 30 wJobAt).state.last_run_at_ms =
        some 10 ∧
    (execute_job_update witnessLib (.ok none) 10 20 30 wJobAt).updated_at_ms = 20 := by
  have he := execute_job_records_outcome witnessLib (.error "boom") 10 20 30 wJobAt
  have ho := execute_job_records_outcome witnessLib (.ok none) 10 20 30 wJobAt
  exact ⟨(he.1 "boom" rfl).1, (he.1 "boom" rfl).2,
    (ho.2.1 none rfl).1, (ho.2.1 none rfl).2, ho.2.2.1, ho.2.2.2⟩

/-- C4: after `_execute_job` on a job present in the collection — if the
schedule kind is `at` and `delete_after_run` holds, no job with that id
remains in the collection; if the kind is `at` and `delete_after_run` is
false, a job with that id remains, disabled and with `next_run_at_ms`
cleared; for any other kind, a job with that id remains with
`next_run_at_ms` recomputed from the schedule at the current time. -/
theorem execute_job_post_run_schedule (lib : CronLib) (outcome : CallbackOutcome)
    (start_ms upd_ms sched_now_ms : Int)
    (store : CronStore) (running : List String) (job : CronJob)
    (hmem : job ∈ store.jobs) :
    (job.schedule.kind = "at" → job.delete_after_run = true →
        ∀ x ∈ (execute_job lib outcome start_ms upd_ms sched_now_ms
                store running job).1.jobs, x.id ≠ job.id) ∧
    (job.schedule.kind = "at" → job.delete_after_run = false →
        ∃ x ∈ (execute_job lib outcome start_ms upd_ms sched_now_ms
                store running job).1.jobs,
          x.id = job.id ∧ x.enabled = false ∧
          x.state.next_run_at_ms = none) ∧
    (job.schedule.kind ≠ "at" →
        ∃ x ∈ (execute_job lib outcome start_ms upd_ms sched_now_ms
                store running job).1.jobs,
          x.id = job.id ∧
          x.state.next_run_at_ms =
            compute_next_run lib job.schedule sched_now_ms) := by
  refine ⟨?_, ?_, ?_⟩
  · intro hk hd x hx
    simp only [execute_job, hk, hd, and_self, if_true] at hx
    have := (List.mem_filter.mp hx).2
    simpa using this
  · intro hk hd
    refine ⟨execute_job_update lib outcome start_ms upd_ms sched_now_ms job,
      ?_, execute_job_update_id lib outcome start_ms upd_ms sched_now_ms job,
      ?_, ?_⟩
    · simp only [execute_job, hk, hd, and_false, if_false]
      exact List.mem_map.mpr ⟨job, hmem, by simp⟩
    · cases outcome <;> simp [execute_job_update, hk, hd]
    · cases outcome <;> simp [execute_job_update, hk, hd]
  · intro hk
    refine ⟨execute_job_update lib outcome start_ms upd_ms sched_now_ms job,
      ?_, execute_job_update_id lib outcome start_ms upd_ms sched_now_ms job,
      ?_⟩
    · have : ¬(job.schedule.kind = "at" ∧ job.delete_after_run = true) := by
        simp [hk]
      simp only [execute_job, this, if_false]
      exact List.mem_map.mpr ⟨job, hmem, by simp⟩
    · cases outcome <;> simp [execute_job_update, hk]

/-- Witness for `execute_job_post_run_schedule`: executing the concrete
kept one-shot job leaves it present, disabled, with no next run. -/
theorem execute_job_post_run_schedule_witness :
    ∃ x ∈ (execute_job witnessLib (.ok none) 10 20 30
            { jobs := [wJobAt] } [] wJobAt).1.jobs,
      x.id = wJobAt.id ∧ x.enabled = false ∧
      x.state.next_run_at_ms = none := by
  have h := execute_job_post_run_schedule witnessLib (.ok none) 10 20 30
    { jobs := [wJobAt] } [] wJobAt (by simp)
  exact h.2.1 rfl rfl

/-! ### Due-job scan (`CronService._check_and_run_due_jobs`) and
`CronService.run_job` -/

/-- Embedding of the due-jobs selection of
`CronService._check_and_run_due_jobs`: the jobs dispatched on a tick are
exactly those that are enabled, have a truthy `next_run_at_ms` that `now`
has reached, and whose id is not in the in-flight set `running`
(`self._running_jobs`). -/
def check_and_run_due_jobs (store : CronStore) (running : List String)
    (now : Int) : List CronJob :=
  store.jobs.filter (fun j =>
    j.enabled && intTruthy j.state.next_run_at_ms &&
      decide (j.state.next_run_at_ms.getD 0 ≤ now) && !List.elem j.id running)

/-- Embedding of `CronService.run_job(job_id, force)`: scan the list for
the first job with the given id; if found and either `force` or the job
is enabled, `_execute_job` is invoked on it (`some job` here; the source
then returns `True`); otherwise no execution starts (`none`; the source
returns `False`). Note that, unlike the due-job scan, this reads nothing
about the in-flight set. -/
def run_job_dispatch (store : CronStore) (job_id : String) (force : Bool) :
    Option CronJob :=
  match store.jobs.find? (fun j => j.id == job_id) with
  | none => none
  | some j => if !force && !j.enabled then none else some j

/-- C8 (amended part): the due-job scan never dispatches a job whose id
is in the in-flight set. -/
theorem due_scan_excludes_in_flight (store : CronStore)
    (running : List String) (now : Int) :
    ∀ j ∈ check_and_run_due_jobs store running now, j.id ∉ running := by
  intro j hj
  have h := (List.mem_filter.mp hj).2
  simp only [Bool.and_eq_true, Bool.not_eq_true'] at h
  intro hmem
  have hfalse := h.2
  simp only [List.elem_eq_mem, decide_eq_false_iff_not] at hfalse
  exact hfalse hmem

/-- A concrete recurring job used in scan/dispatch witnesses. -/
def wJobEvery : CronJob where
  id := "j2"
  name := "tick"
  enabled := true
  schedule := { kind := "every", every_ms := some 1000 }
  payload := { message := "tick" }
  state := { next_run_at_ms := some 2000 }
  created_at_ms := 0
  updated_at_ms := 0

/-- Witness for `due_scan_excludes_in_flight` at a concrete store where
the job is due and the in-flight set is empty. -/
theorem due_scan_excludes_in_flight_witness :
    wJobEvery.id ∉ ([] : List String) :=
  due_scan_excludes_in_flight { jobs := [wJobEvery] } [] 3000 wJobEvery
    (by decide)

/-- C8 (counterexample part): `run_job` does not consult the in-flight
set: with job id `"j2"` already in flight, `run_job("j2", force := false)`
still starts an execution of that job — so it is not the case that no
operation of the instance starts an execution of an already-executing
job id. -/
theorem run_job_ignores_in_flight :
    "j2" ∈ (["j2"] : List String) ∧
    run_job_dispatch { jobs := [wJobEvery] } "j2" false = some wJobEvery := by
  constructor
  · decide
  · rfl

/-! ### `CronService.remove_job` -/

/-- Embedding of `CronService.remove_job(job_id)`: filter out every job
with the given id, report whether the list shrank, and save (once) only
when it did. Returns the new store, the reported boolean and the number
of saves performed. -/
def remove_job (store : CronStore) (job_id : String) : CronStore × Bool × Nat :=
  let jobs' := store.jobs.filter (fun j => j.id != job_id)
  let removed := decide (jobs'.length < store.jobs.length)
  ({ store with jobs := jobs' }, removed, if removed then 1 else 0)

/-- C9: `remove_job` returns `true` and leaves no job with the given id
when one was present; with no matching job it returns `false`, leaves the
stored collection unchanged, and performs no save. -/
theorem remove_job_spec (store : CronStore) (job_id : String) :
    ((∃ j ∈ store.jobs, j.id = job_id) →
        (remove_job store job_id).2.1 = true ∧
        ∀ x ∈ (remove_job store job_id).1.jobs, x.id ≠ job_id) ∧
    ((∀ j ∈ store.jobs, j.id ≠ job_id) →
        (remove_job store job_id).2.1 = false ∧
        (remove_job store job_id).1.jobs = store.jobs ∧
        (remove_job store job_id).2.2 = 0) := by
  constructor
  · rintro ⟨j, hj, hid⟩
    have hsub : List.Sublist (store.jobs.filter (fun x => x.id != job_id))
        store.jobs :=
      List.filter_sublist _
    have hne : store.jobs.filter (fun x => x.id != job_id) ≠ store.jobs := by
      intro heq
      have hjf : j ∈ store.jobs.filter (fun x => x.id != job_id) := by
        rw [heq]; exact hj
      have := (List.mem_filter.mp hjf).2
      simp [hid] at this
    have hlt : (store.jobs.filter (fun x => x.id != job_id)).length <
        store.jobs.length :=
      Nat.lt_of_le_of_ne hsub.length_le
        (fun h => hne (hsub.eq_of_length h))
    constructor
    · simp [remove_job, hlt]
    · intro x hx
      have hx' : x ∈ store.jobs.filter (fun y => y.id != job_id) := by
        simpa [remove_job] using hx
      have := (List.mem_filter.mp hx').2
      simpa using this
  · intro hall
    have heq : store.jobs.filter (fun x => x.id != job_id) = store.jobs := by
      apply List.filter_eq_self.mpr
      intro a ha
      simpa using hall a ha
    have hnl : ¬((store.jobs.filter (fun x => x.id != job_id)).length <
        store.jobs.length) := by
      rw [heq]
      exact Nat.lt_irrefl _
    refine ⟨by simp [remove_job, hnl], by simp [remove_job, heq], ?_⟩
    simp [remove_job, hnl]

/-- Witness for `remove_job_spec`: removing the present id `"j2"` reports
`true`; removing the absent id `"zz"` reports `false`, preserves the
collection and saves nothing. -/
theorem remove_job_spec_witness :
    (remove_job { jobs := [wJobEvery] } "j2").2.1 = true ∧
    (remove_job { jobs := [wJobEvery] } "zz").2.1 = false ∧
    (remove_job { jobs := [wJobEvery] } "zz").1.jobs = [wJobEvery] ∧
    (remove_job { jobs := [wJobEvery] } "zz").2.2 = 0 := by
  have h1 := (remove_job_spec { jobs := [wJobEvery] } "j2").1
    ⟨wJobEvery, by decide, rfl⟩
  have h2 := (remove_job_spec { jobs := [wJobEvery] } "zz").2
    (by intro j hj; simp at hj; subst hj; decide)
  exact ⟨h1.1, h2.1, h2.2.1, h2.2.2⟩

/-! ### `CronService.list_jobs` -/

/-- The sort key `j.state.next_run_at_ms or float('inf')` used by
`list_jobs`: Python `or` replaces both `None` and the falsy `0` by
infinity, modelled as `⊤` in `WithTop Int`. -/
def sortKey (j : CronJob) : WithTop Int :=
  match j.state.next_run_at_ms with
  | none => ⊤
  | some v => if v = 0 then ⊤ else (v : WithTop Int)

/-- The comparison handed to the sort in `list_jobs`. -/
def jobLE (a b : CronJob) : Bool := decide (sortKey a ≤ sortKey b)

/-- Embedding of `CronService.list_jobs(include_disabled)`: keep all jobs
or only the enabled ones, then sort by `next_run_at_ms or float('inf')`
(Python's `sorted` is a stable merge sort). -/
def list_jobs (store : CronStore) (include_disabled : Bool) : List CronJob :=
  let jobs :=
    if include_disabled then store.jobs
    else store.jobs.filter (·.enabled)
  jobs.mergeSort jobLE

theorem jobLE_trans :
    ∀ (a b c : CronJob), jobLE a b → jobLE b c → jobLE a c := by
  intro a b c hab hbc
  simp only [jobLE, decide_eq_true_iff] at hab hbc ⊢
  exact le_trans hab hbc

theorem jobLE_total : ∀ (a b : CronJob), jobLE a b || jobLE b a := by
  intro a b
  simp only [jobLE, Bool.or_eq_true, decide_eq_true_iff]
  exact le_total _ _

/-- C10: `list_jobs` returns a permutation of all jobs when
`include_disabled` is true and of exactly the enabled jobs when it is
false, and in both cases the output is sorted in ascending `sortKey`
order; consequently a job whose `next_run_at_ms` is `None` or `0` never
precedes a job with a positive next run time. -/
theorem list_jobs_spec (store : CronStore) :
    List.Perm (list_jobs store true) store.jobs ∧
    List.Perm (list_jobs store false) (store.jobs.filter (·.enabled)) ∧
    (∀ b : Bool, (list_jobs store b).Pairwise
        (fun a c => sortKey a ≤ sortKey c)) ∧
    (∀ b : Bool, (list_jobs store b).Pairwise
        (fun a c => ∀ v : Int, c.state.next_run_at_ms = some v → 0 < v →
          a.state.next_run_at_ms ≠ none ∧
          a.state.next_run_at_ms ≠ some 0)) := by
  have hsorted : ∀ b : Bool, (list_jobs store b).Pairwise
      (fun a c => sortKey a ≤ sortKey c) := by
    intro b
    have h := List.sorted_mergeSort jobLE_trans jobLE_total
      (if b then store.jobs else store.jobs.filter (·.enabled))
    have h' : (list_jobs store b).Pairwise (fun a c => jobLE a c = true) := by
      cases b <;> exact h
    exact h'.imp (fun hac => by
      simpa only [jobLE, decide_eq_true_iff] using hac)
  refine ⟨List.mergeSort_perm _ _, List.mergeSort_perm _ _, hsorted, ?_⟩
  intro b
  refine (hsorted b).imp ?_
  intro a c hle v hcv hv
  have hv0 : v ≠ 0 := by omega
  have hkc : sortKey c = (v : WithTop Int) := by
    simp [sortKey, hcv, hv0]
  have hlt : sortKey a < ⊤ := lt_of_le_of_lt (hkc ▸ hle) (WithTop.coe_lt_top v)
  have hne : sortKey a ≠ ⊤ := LT.lt.ne hlt
  constructor
  · intro hnone
    exact hne (by simp [sortKey, hnone])
  · intro h0
    exact hne (by simp [sortKey, h0])

/-! ### `CronService.add_jobs_batch` -/

/-- One element of the `jobs_data` list accepted by `add_jobs_batch`,
with the defaults the source applies via `data.get(...)` (`name`,
`schedule` and `message` are accessed unconditionally). -/
structure JobData where
  name : String
  schedule : CronSchedule
  message : String
  kind : String := "agent_turn"
  deliver : Bool := false
  channel : Option String := none
  «to» : Option String := none
  delete_after_run : Bool := false
deriving Repr, DecidableEq

/-- The `CronJob` literal built inside the loop of `add_jobs_batch`.
`id` stands for the `str(uuid.uuid4())[:8]` draw for this element, which
is received as an explicit argument since it comes from the external
random-uuid source. -/
def make_job (lib : CronLib) (id : String) (now : Int) (data : JobData) :
    CronJob :=
  { id := id
    name := data.name
    enabled := true
    schedule := data.schedule
    payload := { kind := data.kind, message := data.message,
                 deliver := data.deliver, channel := data.channel,
                 «to» := data.«to» }
    state := { next_run_at_ms := compute_next_run lib data.schedule now }
    created_at_ms := now
    updated_at_ms := now
    delete_after_run := data.delete_after_run }

/-- Embedding of `CronService.add_jobs_batch(jobs_data)`: an empty batch
returns immediately (no save); otherwise one job per element is built
with the next id from the uuid source `ids`, all are appended, and the
store is saved exactly once. Returns the new store, the list of new jobs
and the number of saves performed. -/
def add_jobs_batch (lib : CronLib) (ids : List String) (now : Int)
    (store : CronStore) (jobs_data : List JobData) :
    CronStore × List CronJob × Nat :=
  if jobs_data.isEmpty then (store, [], 0)
  else
    let new_jobs := List.zipWith (fun d i => make_job lib i now d) jobs_data ids
    ({ store with jobs := store.jobs ++ new_jobs }, new_jobs, 1)

theorem zipWith_make_job_map_id (lib : CronLib) (now : Int) :
    ∀ (ds : List JobData) (ids : List String),
      (List.zipWith (fun d i => make_job lib i now d) ds ids).map (·.id) =
        ids.take ds.length := by
  intro ds
  induction ds with
  | nil => intro ids; simp
  | cons d ds ih =>
    intro ids
    cases ids with
    | nil => simp
    | cons i is =>
      simp only [List.zipWith_cons_cons, List.map_cons, List.length_cons,
        List.take_succ_cons, ih]
      rfl

theorem mem_zipWith_make_job (lib : CronLib) (now : Int) :
    ∀ (ds : List JobData) (ids : List String) (j : CronJob),
      j ∈ List.zipWith (fun d i => make_job lib i now d) ds ids →
      ∃ d i, j = make_job lib i now d := by
  intro ds
  induction ds with
  | nil => intro ids j hj; simp at hj
  | cons d ds ih =>
    intro ids j hj
    cases ids with
    | nil => simp at hj
    | cons i is =>
      simp only [List.zipWith_cons_cons, List.mem_cons] at hj
      rcases hj with hj | hj
      · exact ⟨d, i, hj⟩
      · exact ih is j hj

/-- C7 (counterexample part): `add_jobs_batch` on the empty list of job
definitions performs no save at all, not exactly one. -/
theorem add_jobs_batch_empty_no_save :
    (add_jobs_batch witnessLib [] 0 { jobs := [] } []).2.2 ≠ 1 := by
  simp [add_jobs_batch]

/-- C7 (amended): for every nonempty list of job definitions, with the
uuid source supplying one fresh id per element (pairwise distinct and
unused by the existing jobs), `add_jobs_batch` appends exactly one new
job per definition, the new ids are pairwise distinct and distinct from
every pre-existing job id, each new job's initial `next_run_at_ms` is
computed from its schedule at creation time, exactly one save is
performed, and every new job appears in a subsequent
`list_jobs(include_disabled := false)` call. -/
theorem add_jobs_batch_spec (lib : CronLib) (ids : List String) (now : Int)
    (store : CronStore) (jobs_data : List JobData)
    (hne : jobs_data ≠ [])
    (hlen : ids.length = jobs_data.length)
    (hnodup : ids.Nodup)
    (hfresh : ∀ i ∈ ids, ∀ k ∈ store.jobs, k.id ≠ i) :
    (add_jobs_batch lib ids now store jobs_data).2.1.length =
        jobs_data.length ∧
    (add_jobs_batch lib ids now store jobs_data).2.2 = 1 ∧
    (add_jobs_batch lib ids now store jobs_data).1.jobs =
        store.jobs ++ (add_jobs_batch lib ids now store jobs_data).2.1 ∧
    ((add_jobs_batch lib ids now store jobs_data).2.1.map (·.id)).Nodup ∧
    (∀ j ∈ (add_jobs_batch lib ids now store jobs_data).2.1,
        ∀ k ∈ store.jobs, k.id ≠ j.id) ∧
    (∀ j ∈ (add_jobs_batch lib ids now store jobs_data).2.1,
        j.state.next_run_at_ms = compute_next_run lib j.schedule now) ∧
    (∀ j ∈ (add_jobs_batch lib ids now store jobs_data).2.1,
        j ∈ list_jobs (add_jobs_batch lib ids now store jobs_data).1 false) := by
  have hemp : jobs_data.isEmpty = false := by
    cases jobs_data with
    | nil => exact absurd rfl hne
    | cons d ds => rfl
  have hids : (add_jobs_batch lib ids now store jobs_data).2.1.map (·.id) =
      ids := by
    simp only [add_jobs_batch, hemp, Bool.false_eq_true, if_false]
    rw [zipWith_make_job_map_id, ← hlen, List.take_length]
  refine ⟨?_, ?_, ?_, ?_, ?_, ?_, ?_⟩
  · simp [add_jobs_batch, hemp]
    omega
  · simp [add_jobs_batch, hemp]
  · simp [add_jobs_batch, hemp]
  · rw [hids]; exact hnodup
  · intro j hj k hk
    have hjid : j.id ∈ ids := by
      rw [← hids]
      exact List.mem_map_of_mem _ hj
    exact hfresh j.id hjid k hk
  · intro j hj
    simp only [add_jobs_batch, hemp, Bool.false_eq_true, if_false] at hj
    obtain ⟨d, i, rfl⟩ := mem_zipWith_make_job lib now jobs_data ids j hj
    rfl
  · intro j hj
    have henabled : j.enabled = true := by
      simp only [add_jobs_batch, hemp, Bool.false_eq_true, if_false] at hj
      obtain ⟨d, i, rfl⟩ := mem_zipWith_make_job lib now jobs_data ids j hj
      rfl
    simp only [list_jobs, Bool.false_eq_true, if_false, List.mem_mergeSort,
      List.mem_filter]
    refine ⟨?_, by simpa using henabled⟩
    simp only [add_jobs_batch, hemp, Bool.false_eq_true, if_false] at hj ⊢
    exact List.mem_append_right _ hj

/-- Concrete job definitions used to witness `add_jobs_batch_spec`. -/
def wData1 : JobData where
  name := "n1"
  schedule := { kind := "every", every_ms := some 1000 }
  message := "m1"

/-- Second concrete job definition for the batch witness. -/
def wData2 : JobData where
  name := "n2"
  schedule := { kind := "at", at_ms := some 500 }
  message := "m2"

/-- Third concrete job definition for the batch witness. -/
def wData3 : JobData where
  name := "n3"
  schedule := { kind := "every", every_ms := some 2000 }
  message := "m3"

/-- Witness for `add_jobs_batch_spec`: a batch of three definitions with
three fresh ids yields three new jobs and exactly one save. -/
theorem add_jobs_batch_spec_witness :
    (add_jobs_batch witnessLib ["a", "b", "c"] 0 { jobs := [] }
        [wData1, wData2, wData3]).2.1.length = 3 ∧
    (add_jobs_batch witnessLib ["a", "b", "c"] 0 { jobs := [] }
        [wData1, wData2, wData3]).2.2 = 1 := by
  have h := add_jobs_batch_spec witnessLib ["a", "b", "c"] 0 { jobs := [] }
    [wData1, wData2, wData3] (by simp) rfl (by decide) (by simp)
  exact ⟨h.1, h.2.1⟩

/-! ### Job store loading (`CronService._load_store`)

The loader reads the backing file, parses it with `json.loads` and
extracts the job fields inside one `try`/`except`; any exception yields
an empty store. JSON values are modelled by `JValue`; `json.loads`
itself is received as a function returning `none` when it raises.
Because Python is dynamically typed, leaf values are kept as `JValue`s
in `Raw*` structures: the extraction fails only where the source raises
(missing key, indexing or `.get` on a non-dict, iterating a
non-iterable), never on the type of a leaf. -/

/-- A JSON value as produced by `json.loads`. -/
inductive JValue where
  | null
  | bool (b : Bool)
  | num (n : Int)
  | str (s : String)
  | arr (elems : List JValue)
  | obj (fields : List (String × JValue))

/-- Python `v[key]` with a string key: succeeds only on a dict that has
the key (otherwise `KeyError`/`TypeError`). -/
def jIndex : JValue → String → Option JValue
  | .obj fields, key => (fields.find? (fun kv => kv.fst == key)).map (·.snd)
  | _, _ => none

/-- Python `v.get(key, dflt)`: requires a dict (otherwise
`AttributeError`), and never fails on one. -/
def jGetD : JValue → String → JValue → Option JValue
  | .obj fields, key, dflt =>
      some (((fields.find? (fun kv => kv.fst == key)).map (·.snd)).getD dflt)
  | _, _, _ => none

/-- Python `for x in v`: lists yield elements, dicts their keys, strings
their characters; other values raise `TypeError`. -/
def pyIter : JValue → Option (List JValue)
  | .arr elems => some elems
  | .obj fields => some (fields.map (fun kv => JValue.str kv.fst))
  | .str s => some (s.toList.map (fun c => JValue.str (String.singleton c)))
  | _ => none

/-- Schedule fields as extracted by `_load_store` (dynamically typed). -/
structure RawSchedule where
  kind : JValue
  at_ms : JValue
  every_ms : JValue
  expr : JValue
  tz : JValue

/-- Payload fields as extracted by `_load_store` (dynamically typed). -/
structure RawPayload where
  kind : JValue
  message : JValue
  deliver : JValue
  channel : JValue
  «to» : JValue

/-- Run-state fields as extracted by `_load_store` (dynamically typed). -/
structure RawState where
  next_run_at_ms : JValue
  last_run_at_ms : JValue
  last_status : JValue
  last_error : JValue

/-- One job as extracted by `_load_store` (dynamically typed). -/
structure RawJob where
  id : JValue
  name : JValue
  enabled : JValue
  schedule : RawSchedule
  payload : RawPayload
  state : RawState
  created_at_ms : JValue
  updated_at_ms : JValue
  delete_after_run : JValue

/-- The loaded collection; `jobs := []` is the empty collection the
loader substitutes on any failure. -/
structure RawStore where
  jobs : List RawJob := []

/-- Extraction of the `schedule` sub-object
(`j["schedule"]["kind"]` and the `.get` accesses beside it). -/
def parseRawSchedule (sched : JValue) : Option RawSchedule := do
  let skind ← jIndex sched "kind"
  let atMs ← jGetD sched "atMs" JValue.null
  let everyMs ← jGetD sched "everyMs" JValue.null
  let expr ← jGetD sched "expr" JValue.null
  let tz ← jGetD sched "tz" JValue.null
  some { kind := skind, at_ms := atMs, every_ms := everyMs,
         expr := expr, tz := tz }

/-- Extraction of the `payload` sub-object with its `.get` defaults. -/
def parseRawPayload (payload : JValue) : Option RawPayload := do
  let pkind ← jGetD payload "kind" (JValue.str "agent_turn")
  let message ← jGetD payload "message" (JValue.str "")
  let deliver ← jGetD payload "deliver" (JValue.bool false)
  let channel ← jGetD payload "channel" JValue.null
  let toVal ← jGetD payload "to" JValue.null
  some { kind := pkind, message := message, deliver := deliver,
         channel := channel, «to» := toVal }

/-- Extraction of the `state` sub-object (from `j.get("state", dict())`)
with its `.get` defaults. -/
def parseRawState (stateVal : JValue) : Option RawState := do
  let nextRun ← jGetD stateVal "nextRunAtMs" JValue.null
  let lastRun ← jGetD stateVal "lastRunAtMs" JValue.null
  let lastStatus ← jGetD stateVal "lastStatus" JValue.null
  let lastError ← jGetD stateVal "lastError" JValue.null
  some { next_run_at_ms := nextRun, last_run_at_ms := lastRun,
         last_status := lastStatus, last_error := lastError }

/-- The per-job extraction inside `_load_store`'s loop, with the source's
access order and `.get` defaults; `none` models an exception reaching
the surrounding `except`. -/
def parseJob (j : JValue) : Option RawJob := do
  let id ← jIndex j "id"
  let name ← jIndex j "name"
  let enabled ← jGetD j "enabled" (JValue.bool true)
  let sched ← jIndex j "schedule"
  let schedule ← parseRawSchedule sched
  let payloadVal ← jIndex j "payload"
  let payload ← parseRawPayload payloadVal
  let stateVal ← jGetD j "state" (JValue.obj [])
  let state ← parseRawState stateVal
  let createdAt ← jGetD j "createdAtMs" (JValue.num 0)
  let updatedAt ← jGetD j "updatedAtMs" (JValue.num 0)
  let deleteAfter ← jGetD j "deleteAfterRun" (JValue.bool false)
  some { id := id, name := name, enabled := enabled,
         schedule := schedule, payload := payload, state := state,
         created_at_ms := createdAt, updated_at_ms := updatedAt,
         delete_after_run := deleteAfter }

/-- The whole-document extraction of `_load_store`:
`data.get("jobs", [])`, iterate it, extract each job. -/
def parseStore (data : JValue) : Option RawStore := do
  let jobsVal ← jGetD data "jobs" (.arr [])
  let items ← pyIter jobsVal
  let jobs ← items.mapM parseJob
  pure { jobs := jobs }

/-- Embedding of `CronService._load_store()`: return the cached store if
one is loaded; otherwise a missing backing file yields an empty store,
and so does any exception from `json.loads` (`jsonLoads text = none`) or
from the field extraction. The embedding is a total function — no
exception escapes the loader. -/
def load_store (cache : Option RawStore) (fileContent : Option String)
    (jsonLoads : String → Option JValue) : RawStore :=
  match cache with
  | some s => s
  | none =>
    match fileContent with
    | none => {}
    | some text =>
      match jsonLoads text with
      | none => {}
      | some data =>
        match parseStore data with
        | none => {}
        | some s => s

/-- C6: `_load_store` never raises (the embedding is total), a missing
backing file yields the empty collection, and a file whose content fails
`json.loads` — or whose parsed document fails the expected-shape
extraction — yields the empty collection. -/
theorem load_store_tolerates_corruption (jsonLoads : String → Option JValue) :
    load_store none none jsonLoads = ({} : RawStore) ∧
    (∀ text : String, jsonLoads text = none →
        load_store none (some text) jsonLoads = ({} : RawStore)) ∧
    (∀ (text : String) (data : JValue), jsonLoads text = some data →
        parseStore data = none →
        load_store none (some text) jsonLoads = ({} : RawStore)) := by
  refine ⟨rfl, ?_, ?_⟩
  · intro text h
    simp [load_store, h]
  · intro text data h hp
    simp [load_store, h, hp]

/-- Witness for `load_store_tolerates_corruption`: a `json.loads` that
rejects everything (malformed JSON), and one that parses the file as the
JSON document `3`, which fails the shape extraction. -/
theorem load_store_tolerates_corruption_witness :
    load_store none none (fun _ => none) = ({} : RawStore) ∧
    load_store none (some "not json") (fun _ => none) = ({} : RawStore) ∧
    load_store none (some "3") (fun _ => some (.num 3)) = ({} : RawStore) := by
  have h1 := load_store_tolerates_corruption (fun _ => none)
  have h2 := load_store_tolerates_corruption (fun _ => some (.num 3))
  exact ⟨h1.1, h1.2.1 "not json" rfl, h2.2.2 "3" (.num 3) rfl rfl⟩

end NanobotCron
